import Mathlib

/-!
Shallow embedding of the portfolio page script (script.js).

The script wires independent UI modules: a mobile menu (checkbox toggle with
outside-click / Escape dismissal), a scroll-to-top button whose visibility is
recomputed at most once per animation frame, a contact-form validator with
inline error elements, and a lazy image loader driven by intersection
notifications.  Strings are modelled as `List Char`; DOM elements are modelled
as records carrying exactly the attributes the script reads or writes.
-/

namespace Portfolio

/-- Configuration object of the script (`PortfolioManager.config`). -/
structure Config where
  scrollThreshold : Nat
  animationDuration : Nat

/-- The literal `config` value from the source (breakpoints are never read by
the modelled code and are omitted). -/
def config : Config :=
  { scrollThreshold := 300, animationDuration := 300 }

/-! ### Form manager: validation and error display -/

/-- JavaScript `String.prototype.trim`: drop whitespace from both ends. -/
def trim (s : List Char) : List Char :=
  ((s.dropWhile Char.isWhitespace).reverse.dropWhile Char.isWhitespace).reverse

/-- Character class `[^\s@]` of the e-mail regex: not whitespace and not `@`. -/
def isEmailChar (c : Char) : Bool :=
  !c.isWhitespace && c != '@'

/-- Matcher for the suffix `\.[^\s@]+$` reachable after at least one domain
character: at each position either the mandatory `.` is here (and the rest is
a non-empty run of `[^\s@]` characters to the end), or the current character is
consumed by the preceding `[^\s@]+` and matching continues.  Note that `.`
itself belongs to `[^\s@]`, so both alternatives can apply. -/
def matchDomTail : List Char → Bool
  | [] => false
  | c :: rest =>
    (c == '.' && !rest.isEmpty && rest.all isEmailChar) ||
    (isEmailChar c && matchDomTail rest)

/-- Matcher for `[^\s@]+\.[^\s@]+$`, the part of the pattern after `@`. -/
def matchDomain : List Char → Bool
  | [] => false
  | c :: rest => isEmailChar c && matchDomTail rest

/-- Matcher for the rest of the pattern after at least one local-part
character: either the `@` is here (followed by the domain), or another
`[^\s@]` local character is consumed. -/
def matchLocalTail : List Char → Bool
  | [] => false
  | c :: rest =>
    (c == '@' && matchDomain rest) ||
    (isEmailChar c && matchLocalTail rest)

/-- The test `/^[^\s@]+@[^\s@]+\.[^\s@]+$/.test(email)` from `isValidEmail`:
at least one `[^\s@]` character, then `@`, then the domain part. -/
def isValidEmail : List Char → Bool
  | [] => false
  | c :: rest => isEmailChar c && matchLocalTail rest

/-- A form field element (e-mail input or textarea) together with the pieces of
its surrounding DOM that the script touches: its `error` class, its
`aria-invalid` attribute, and the text contents of the `.error-message`
elements living in its parent element. -/
structure FieldElem where
  value : List Char
  errorClass : Bool
  ariaInvalid : Bool
  parentMsgs : List (List Char)
deriving DecidableEq, Repr

/-- The submit button: its text content and disabled flag. -/
structure SubmitBtn where
  text : List Char
  disabled : Bool
deriving DecidableEq, Repr

/-- A form as the script sees it: the first `input[type="email"]`, the first
`textarea`, and the first `button[type="submit"]`, each possibly absent. -/
structure FormState where
  email : Option FieldElem
  textarea : Option FieldElem
  submitBtn : Option SubmitBtn
deriving DecidableEq, Repr

/-- Body of `showError` once the element null-check passed: add the `error`
class, set `aria-invalid="true"`, and write the message into the first
`.error-message` element of the parent, creating one only when none exists. -/
def showErrorElem (el : FieldElem) (message : List Char) : FieldElem :=
  { el with
    errorClass := true
    ariaInvalid := true
    parentMsgs :=
      match el.parentMsgs with
      | [] => [message]
      | _ :: rest => message :: rest }

/-- `showError(element, message)`: no-op when the element reference is null. -/
def showError (el : Option FieldElem) (message : List Char) : Option FieldElem :=
  match el with
  | none => none
  | some e => some (showErrorElem e message)

/-- Effect of `clearErrors` on a single field: remove the `error` class and the
`aria-invalid` attribute, remove all `.error-message` elements. -/
def clearField (el : FieldElem) : FieldElem :=
  { el with errorClass := false, ariaInvalid := false, parentMsgs := [] }

/-- `clearErrors(form)`: clear error state on every field of the form. -/
def clearErrors (f : FormState) : FormState :=
  { f with email := f.email.map clearField, textarea := f.textarea.map clearField }

def emailRequiredMsg : List Char := "Email is required".toList

def emailInvalidMsg : List Char := "Please enter a valid email".toList

def messageRequiredMsg : List Char := "Message is required".toList

/-- Condition `!email || !email.value.trim()`: reference absent or value blank. -/
def fieldMissingOrBlank (el : Option FieldElem) : Bool :=
  match el with
  | none => true
  | some e => (trim e.value).isEmpty

/-- `validateForm(form)`: returns the updated form, the message passed to
`showError` (if any), and the boolean result.  Checks the e-mail field, then
the e-mail pattern, then the textarea, short-circuiting on first failure;
clears all errors only when everything passed. -/
def validateForm (f : FormState) : FormState × Option (List Char) × Bool :=
  if fieldMissingOrBlank f.email then
    ({ f with email := showError f.email emailRequiredMsg }, some emailRequiredMsg, false)
  else if !isValidEmail ((f.email.map (·.value)).getD []) then
    ({ f with email := showError f.email emailInvalidMsg }, some emailInvalidMsg, false)
  else if fieldMissingOrBlank f.textarea then
    ({ f with textarea := showError f.textarea messageRequiredMsg },
      some messageRequiredMsg, false)
  else
    (clearErrors f, none, true)

def sentText : List Char := "✓ Message Sent".toList

/-- `handleSubmit(e)` after `preventDefault`: validate; on success, when a
submit button exists, show the sent state and schedule one reset callback,
returned as `some (delayMs, originalText)`. -/
def handleSubmit (f : FormState) : FormState × Option (Nat × List Char) :=
  let v := validateForm f
  if v.2.2 then
    match v.1.submitBtn with
    | some btn =>
      ({ v.1 with submitBtn := some { text := sentText, disabled := true } },
        some (2000, btn.text))
    | none => (v.1, none)
  else
    (v.1, none)

/-- Effect of `form.reset()` on a single field: the value is cleared. -/
def resetField (el : FieldElem) : FieldElem :=
  { el with value := [] }

/-- Body of the deferred callback scheduled by `handleSubmit`: `form.reset()`,
restore the button text, re-enable the button. -/
def runResetCallback (originalText : List Char) (f : FormState) : FormState :=
  { f with
    email := f.email.map resetField
    textarea := f.textarea.map resetField
    submitBtn := f.submitBtn.map (fun _ => { text := originalText, disabled := false }) }

/-- A form whose two fields carry the given values and no error state. -/
def mkForm (emailVal textVal : List Char) : FormState :=
  { email := some { value := emailVal, errorClass := false, ariaInvalid := false, parentMsgs := [] }
    textarea := some { value := textVal, errorClass := false, ariaInvalid := false, parentMsgs := [] }
    submitBtn := none }

/-! ### Mobile menu -/

/-- Observable menu state: the toggle checkbox's checked flag and whether the
nav container carries the `active` class. -/
structure MenuState where
  checked : Bool
  navActive : Bool
deriving DecidableEq, Repr

/-- Where a click landed, as tested by the handlers: inside the nav container
(`nav.contains(e.target)`), inside the toggle control, and whether the target
is one of the `.nav a` links (which carry their own close handler). -/
structure ClickTarget where
  insideNav : Bool
  insideToggle : Bool
  isNavLink : Bool
deriving DecidableEq, Repr

/-- Events handled by `MobileMenu.init`. -/
inductive MenuEvent where
  | toggleChange
  | click (t : ClickTarget)
  | keydown (escape : Bool)
deriving DecidableEq, Repr

/-- Closing the menu: `menuToggle.checked = false; nav.classList.remove('active')`. -/
def closeMenu : MenuState := { checked := false, navActive := false }

/-- One event dispatch through the menu handlers.  A user change of the
checkbox flips `checked` and the change handler syncs the class.  A click first
runs the per-link close handler (when the target is a nav link), then the
document-level outside-click handler.  Escape closes when checked. -/
def menuStep (s : MenuState) : MenuEvent → MenuState
  | .toggleChange =>
    let c := !s.checked
    { checked := c, navActive := c }
  | .click t =>
    let s1 := if t.isNavLink then closeMenu else s
    if !t.insideNav && !t.insideToggle && s1.checked then closeMenu else s1
  | .keydown esc => if esc && s.checked then closeMenu else s

/-- The menu invariant: active class iff checked. -/
def menuInv (s : MenuState) : Prop := s.navActive = s.checked

instance (s : MenuState) : Decidable (menuInv s) := by
  unfold menuInv; infer_instance

/-! ### Scroll manager -/

/-- Scroll module state: the button's `visible` class, the `ticking` flag, the
number of queued `requestAnimationFrame(updateScrollButton)` callbacks not yet
run (a ghost counter), and the current vertical scroll offset. -/
structure ScrollBtnState where
  visible : Bool
  ticking : Bool
  pendingFrames : Nat
  scrollY : Nat
deriving DecidableEq, Repr

/-- `updateScrollButton`: toggle the `visible` class on whether the scroll
offset exceeds the configured threshold, then clear `ticking`. -/
def updateScrollButton (cfg : Config) (s : ScrollBtnState) : ScrollBtnState :=
  { s with visible := decide (s.scrollY > cfg.scrollThreshold), ticking := false }

/-- Events of the scroll module: a scroll event at a given offset, or the
rendering frame running one queued callback. -/
inductive ScrollEvent where
  | scroll (y : Nat)
  | frame
deriving DecidableEq, Repr

/-- One step of the scroll module.  The scroll listener schedules a frame
callback only when `ticking` is false, then sets it; a frame runs one queued
`updateScrollButton` if any is pending. -/
def scrollStep (cfg : Config) (s : ScrollBtnState) : ScrollEvent → ScrollBtnState
  | .scroll y =>
    let s' := { s with scrollY := y }
    if !s'.ticking then { s' with pendingFrames := s'.pendingFrames + 1, ticking := true }
    else s'
  | .frame =>
    match s.pendingFrames with
    | 0 => s
    | n + 1 => updateScrollButton cfg { s with pendingFrames := n }

/-- Initial scroll module state after `init`. -/
def scrollInit : ScrollBtnState :=
  { visible := false, ticking := false, pendingFrames := 0, scrollY := 0 }

/-- The coalescing invariant: exactly one callback is pending iff `ticking`. -/
def tickInv (s : ScrollBtnState) : Prop :=
  s.pendingFrames = if s.ticking then 1 else 0

instance (s : ScrollBtnState) : Decidable (tickInv s) := by
  unfold tickInv; infer_instance

/-! ### Lazy image loading -/

/-- An image element: its `src`, its `data-src` attribute (pending source,
`none` when absent), its `loaded` class, and a ghost counter of how many times
the load action ran. -/
structure LazyImg where
  src : List Char
  dataSrc : Option (List Char)
  loadedClass : Bool
  loadCount : Nat
deriving DecidableEq, Repr

/-- Body of the intersection handler for one intersecting image:
`img.src = img.dataset.src || img.src` (an absent or empty `data-src` is falsy
and falls back to the current `src`), add the `loaded` class. -/
def loadImg (img : LazyImg) : LazyImg :=
  { img with
    src :=
      match img.dataSrc with
      | some d => if d.isEmpty then img.src else d
      | none => img.src
    loadedClass := true
    loadCount := img.loadCount + 1 }

/-- One image together with its membership in the observer's target set. -/
structure ObservedImg where
  observed : Bool
  img : LazyImg
deriving DecidableEq, Repr

/-- Delivery of one intersection notification for the element.  The observer
only delivers entries for elements still in its target set; the handler loads
the image and unobserves it when the entry is intersecting. -/
def intersectionNotify (s : ObservedImg) (isIntersecting : Bool) : ObservedImg :=
  if s.observed then
    if isIntersecting then { observed := false, img := loadImg s.img } else s
  else s

/-! ### Interaction sequences with the form -/

/-- Number of `.error-message` elements in a field's parent (0 when the field
reference is absent). -/
def msgCount (el : Option FieldElem) : Nat :=
  match el with
  | none => 0
  | some e => e.parentMsgs.length

/-- The no-duplicate-error-element invariant: each field's parent holds at
most one `.error-message` element. -/
def errMsgInv (f : FormState) : Prop :=
  msgCount f.email ≤ 1 ∧ msgCount f.textarea ≤ 1

instance (f : FormState) : Decidable (errMsgInv f) := by
  unfold errMsgInv; infer_instance

/-- User interactions with the form: editing the field values, or submitting
(which runs the `submit` handler). -/
inductive FormAction where
  | edit (emailVal textVal : List Char)
  | submit
deriving DecidableEq, Repr

/-- One user interaction applied to the form state. -/
def formStep (f : FormState) : FormAction → FormState
  | .edit ev tv =>
    { f with
      email := f.email.map (fun e => { e with value := ev })
      textarea := f.textarea.map (fun e => { e with value := tv }) }
  | .submit => (handleSubmit f).1

end Portfolio


namespace Portfolio

/-! ## Helper lemmas -/

/-- A value trims to empty exactly when it is blank (all whitespace). -/
theorem trim_isEmpty_iff (v : List Char) :
    (trim v).isEmpty = v.all Char.isWhitespace := by
  rw [Bool.eq_iff_iff]
  unfold trim
  rw [List.isEmpty_iff, List.reverse_eq_nil_iff, List.dropWhile_eq_nil_iff,
    List.all_eq_true]
  constructor
  · intro h x hx
    rcases List.mem_append.mp
        ((List.takeWhile_append_dropWhile (p := Char.isWhitespace) (l := v)) ▸ hx) with
      h1 | h2
    · exact List.mem_takeWhile_imp h1
    · exact h x (List.mem_reverse.mpr h2)
  · intro h x hx
    exact h x ((List.dropWhile_sublist (p := Char.isWhitespace) (l := v)).mem
      (List.mem_reverse.mp hx))

/-- Characterization of `matchDomTail`: the suffix decomposes around a dot. -/
theorem matchDomTail_iff (t : List Char) :
    matchDomTail t = true ↔
      ∃ b c, t = b ++ '.' :: c ∧ b.all isEmailChar = true ∧ c ≠ [] ∧
        c.all isEmailChar = true := by
  induction t with
  | nil =>
    simp only [matchDomTail, Bool.false_eq_true, false_iff]
    rintro ⟨b, c, h, -, -, -⟩
    exact absurd h.symm (List.append_ne_nil_of_right_ne_nil b (List.cons_ne_nil _ _))
  | cons x rest ih =>
    simp only [matchDomTail, Bool.or_eq_true, Bool.and_eq_true, beq_iff_eq,
      Bool.not_eq_true', List.isEmpty_eq_false]
    constructor
    · rintro (⟨⟨hx, hne⟩, hall⟩ | ⟨hx, htail⟩)
      · exact ⟨[], rest, by simp [hx], rfl, hne, hall⟩
      · obtain ⟨b, c, heq, hball, hcne, hcall⟩ := ih.mp htail
        exact ⟨x :: b, c, by simp [heq], by simp [hball, hx], hcne, hcall⟩
    · rintro ⟨b, c, heq, hball, hcne, hcall⟩
      cases b with
      | nil =>
        simp only [List.nil_append, List.cons.injEq] at heq
        exact Or.inl ⟨⟨heq.1, heq.2 ▸ hcne⟩, heq.2 ▸ hcall⟩
      | cons y b' =>
        simp only [List.cons_append, List.cons.injEq] at heq
        simp only [List.all_cons, Bool.and_eq_true] at hball
        exact Or.inr ⟨heq.1 ▸ hball.1, ih.mpr ⟨b', c, heq.2, hball.2, hcne, hcall⟩⟩

/-- Characterization of `matchDomain`: a non-empty `[^\s@]` run, a dot, and a
non-empty `[^\s@]` run. -/
theorem matchDomain_iff (d : List Char) :
    matchDomain d = true ↔
      ∃ b c, d = b ++ '.' :: c ∧ b ≠ [] ∧ b.all isEmailChar = true ∧ c ≠ [] ∧
        c.all isEmailChar = true := by
  cases d with
  | nil =>
    simp only [matchDomain, Bool.false_eq_true, false_iff]
    rintro ⟨b, c, h, -, -, -, -⟩
    exact absurd h.symm (List.append_ne_nil_of_right_ne_nil b (List.cons_ne_nil _ _))
  | cons x rest =>
    simp only [matchDomain, Bool.and_eq_true, matchDomTail_iff]
    constructor
    · rintro ⟨hx, b, c, heq, hball, hcne, hcall⟩
      exact ⟨x :: b, c, by simp [heq], List.cons_ne_nil _ _, by simp [hball, hx],
        hcne, hcall⟩
    · rintro ⟨b, c, heq, hbne, hball, hcne, hcall⟩
      cases b with
      | nil => exact absurd rfl hbne
      | cons y b' =>
        simp only [List.cons_append, List.cons.injEq] at heq
        simp only [List.all_cons, Bool.and_eq_true] at hball
        exact ⟨heq.1 ▸ hball.1, b', c, heq.2, hball.2, hcne, hcall⟩

/-- Characterization of `matchLocalTail`: some `[^\s@]` characters, an `@`,
and a matching domain. -/
theorem matchLocalTail_iff (t : List Char) :
    matchLocalTail t = true ↔
      ∃ a d, t = a ++ '@' :: d ∧ a.all isEmailChar = true ∧ matchDomain d = true := by
  induction t with
  | nil =>
    simp only [matchLocalTail, Bool.false_eq_true, false_iff]
    rintro ⟨a, d, h, -, -⟩
    exact absurd h.symm (List.append_ne_nil_of_right_ne_nil a (List.cons_ne_nil _ _))
  | cons x rest ih =>
    simp only [matchLocalTail, Bool.or_eq_true, Bool.and_eq_true, beq_iff_eq]
    constructor
    · rintro (⟨hx, hdom⟩ | ⟨hx, htail⟩)
      · exact ⟨[], rest, by simp [hx], rfl, hdom⟩
      · obtain ⟨a, d, heq, hall, hdom⟩ := ih.mp htail
        exact ⟨x :: a, d, by simp [heq], by simp [hall, hx], hdom⟩
    · rintro ⟨a, d, heq, hall, hdom⟩
      cases a with
      | nil =>
        simp only [List.nil_append, List.cons.injEq] at heq
        exact Or.inl ⟨heq.1, heq.2 ▸ hdom⟩
      | cons y a' =>
        simp only [List.cons_append, List.cons.injEq] at heq
        simp only [List.all_cons, Bool.and_eq_true] at hall
        exact Or.inr ⟨heq.1 ▸ hall.1, ih.mpr ⟨a', d, heq.2, hall.2, hdom⟩⟩

/-- Full characterization of the e-mail pattern: a non-empty whitespace-free
and `@`-free local part, an `@`, and a domain containing an interior dot. -/
theorem isValidEmail_iff (s : List Char) :
    isValidEmail s = true ↔
      ∃ a b c, s = a ++ '@' :: (b ++ '.' :: c) ∧
        a ≠ [] ∧ a.all isEmailChar = true ∧
        b ≠ [] ∧ b.all isEmailChar = true ∧
        c ≠ [] ∧ c.all isEmailChar = true := by
  cases s with
  | nil =>
    simp only [isValidEmail, Bool.false_eq_true, false_iff]
    rintro ⟨a, b, c, h, -, -, -, -, -, -⟩
    exact absurd h.symm (List.append_ne_nil_of_right_ne_nil a (List.cons_ne_nil _ _))
  | cons x rest =>
    simp only [isValidEmail, Bool.and_eq_true, matchLocalTail_iff, matchDomain_iff]
    constructor
    · rintro ⟨hx, a, d, heq, hall, b, c, hdeq, hbne, hball, hcne, hcall⟩
      exact ⟨x :: a, b, c, by simp [heq, hdeq], List.cons_ne_nil _ _,
        by simp [hall, hx], hbne, hball, hcne, hcall⟩
    · rintro ⟨a, b, c, heq, hane, haall, hbne, hball, hcne, hcall⟩
      cases a with
      | nil => exact absurd rfl hane
      | cons y a' =>
        simp only [List.cons_append, List.cons.injEq] at heq
        simp only [List.all_cons, Bool.and_eq_true] at haall
        exact ⟨heq.1 ▸ haall.1, a', b ++ '.' :: c, heq.2, haall.2, b, c, rfl,
          hbne, hball, hcne, hcall⟩

/-! ## Claim theorems -/

/-- C1: on submission, validation checks the first email input and the first
textarea in order, short-circuiting on first failure: a missing or blank
(all-whitespace) e-mail yields "Email is required"; a present e-mail failing
the pattern (non-empty whitespace-free and `@`-free local and domain parts,
with a dot in the domain that has characters on both sides) yields "Please
enter a valid email"; only when the e-mail passes does a missing or blank
textarea yield "Message is required".  Concretely "a@b.co" passes, while "",
"abc", "a@b" and "a @b.co" fail with the corresponding ordered errors. -/
theorem C1_validateForm_ordering :
    (∀ v : List Char, (trim v).isEmpty = v.all Char.isWhitespace) ∧
    (∀ s : List Char, isValidEmail s = true ↔
      ∃ a b c, s = a ++ '@' :: (b ++ '.' :: c) ∧
        a ≠ [] ∧ a.all isEmailChar = true ∧
        b ≠ [] ∧ b.all isEmailChar = true ∧
        c ≠ [] ∧ c.all isEmailChar = true) ∧
    (∀ f : FormState, fieldMissingOrBlank f.email = true →
      (validateForm f).2 = (some emailRequiredMsg, false)) ∧
    (∀ (f : FormState) (e : FieldElem), f.email = some e →
      (trim e.value).isEmpty = false → isValidEmail e.value = false →
      (validateForm f).2 = (some emailInvalidMsg, false)) ∧
    (∀ (f : FormState) (e : FieldElem), f.email = some e →
      (trim e.value).isEmpty = false → isValidEmail e.value = true →
      fieldMissingOrBlank f.textarea = true →
      (validateForm f).2 = (some messageRequiredMsg, false)) ∧
    isValidEmail "a@b.co".toList = true ∧
    (validateForm (mkForm "".toList "hi".toList)).2 = (some emailRequiredMsg, false) ∧
    (validateForm (mkForm "abc".toList "hi".toList)).2 = (some emailInvalidMsg, false) ∧
    (validateForm (mkForm "a@b".toList "hi".toList)).2 = (some emailInvalidMsg, false) ∧
    (validateForm (mkForm "a @b.co".toList "hi".toList)).2 = (some emailInvalidMsg, false) ∧
    (validateForm (mkForm "a@b.co".toList "".toList)).2 = (some messageRequiredMsg, false) ∧
    (validateForm (mkForm "a@b.co".toList "hi".toList)).2 = (none, true) := by
  refine ⟨trim_isEmpty_iff, isValidEmail_iff, ?_, ?_, ?_,
    by decide, by decide, by decide, by decide, by decide, by decide, by decide⟩
  · intro f h
    simp [validateForm, h]
  · intro f e he hb hv
    have h1 : fieldMissingOrBlank (some e) = false := by
      simp [fieldMissingOrBlank, hb]
    simp [validateForm, he, h1, hv]
  · intro f e he hb hv ht
    have h1 : fieldMissingOrBlank (some e) = false := by
      simp [fieldMissingOrBlank, hb]
    simp [validateForm, he, h1, hv, ht]

/-- Witness for C1 at a concrete input: "x y" is non-blank but fails the
pattern, so the second ordered error is reported. -/
theorem C1_validateForm_ordering_witness :
    (validateForm (mkForm "x y".toList "hi".toList)).2 = (some emailInvalidMsg, false) :=
  C1_validateForm_ordering.2.2.2.1 (mkForm "x y".toList "hi".toList)
    { value := "x y".toList, errorClass := false, ariaInvalid := false, parentMsgs := [] }
    rfl (by decide) (by decide)

/-- C2: every handler of the mobile menu preserves the invariant that the nav
container carries the active class iff the toggle control is checked, so the
equivalence holds after any sequence of toggle-change, click and key events
from a state where it holds. -/
theorem C2_menu_invariant :
    (∀ (s : MenuState) (e : MenuEvent), menuInv s → menuInv (menuStep s e)) ∧
    (∀ (s : MenuState) (evs : List MenuEvent), menuInv s →
      menuInv (List.foldl menuStep s evs)) := by
  have step : ∀ (s : MenuState) (e : MenuEvent), menuInv s → menuInv (menuStep s e) := by
    intro s e
    rcases s with ⟨c, a⟩
    cases e with
    | toggleChange => cases c <;> cases a <;> decide
    | click t =>
      rcases t with ⟨i1, i2, i3⟩
      cases c <;> cases a <;> cases i1 <;> cases i2 <;> cases i3 <;> decide
    | keydown esc => cases c <;> cases a <;> cases esc <;> decide
  refine ⟨step, ?_⟩
  intro s evs
  induction evs generalizing s with
  | nil => exact fun h => h
  | cons e evs ih => exact fun h => ih _ (step s e h)

/-- Witness for C2: the invariant survives a concrete event sequence. -/
theorem C2_menu_invariant_witness :
    menuInv (List.foldl menuStep ⟨false, false⟩
      [MenuEvent.toggleChange, MenuEvent.click ⟨false, false, false⟩,
        MenuEvent.keydown true]) :=
  C2_menu_invariant.2 ⟨false, false⟩ _ (by decide)

/-- C3 counterexample: with the menu open, a click on a navigation link is a
click whose target lies inside the nav container, yet it closes the menu (the
per-link close handler fires), refuting the claim that a click with target
inside the menu never closes it. -/
theorem C3_inside_click_counterexample :
    (ClickTarget.mk true false true).insideNav = true ∧
    (MenuState.mk true true).checked = true ∧
    menuStep ⟨true, true⟩ (MenuEvent.click ⟨true, false, true⟩) ≠ ⟨true, true⟩ ∧
    menuStep ⟨true, true⟩ (MenuEvent.click ⟨true, false, true⟩) = closeMenu := by
  decide

/-- C3 (amended): while the menu is open, a click whose target is outside both
the nav container and the toggle closes the menu; a click whose target is
inside the nav and is not a navigation link leaves the state unchanged (a
click on a navigation link closes the menu by design); Escape closes the menu
when it is open and changes nothing when it is closed. -/
theorem C3_click_escape_behaviour :
    (∀ (s : MenuState) (t : ClickTarget), s.checked = true →
      t.insideNav = false → t.insideToggle = false →
      menuStep s (MenuEvent.click t) = closeMenu) ∧
    (∀ (s : MenuState) (t : ClickTarget), t.insideNav = true → t.isNavLink = false →
      menuStep s (MenuEvent.click t) = s) ∧
    (∀ (s : MenuState) (t : ClickTarget), t.isNavLink = true → t.insideNav = true →
      menuStep s (MenuEvent.click t) = closeMenu) ∧
    (∀ s : MenuState, s.checked = true → menuStep s (MenuEvent.keydown true) = closeMenu) ∧
    (∀ (s : MenuState) (esc : Bool), s.checked = false →
      menuStep s (MenuEvent.keydown esc) = s) := by
  refine ⟨?_, ?_, ?_, ?_, ?_⟩
  · intro s t
    rcases s with ⟨c, a⟩; rcases t with ⟨i1, i2, i3⟩
    cases c <;> cases a <;> cases i1 <;> cases i2 <;> cases i3 <;> decide
  · intro s t
    rcases s with ⟨c, a⟩; rcases t with ⟨i1, i2, i3⟩
    cases c <;> cases a <;> cases i1 <;> cases i2 <;> cases i3 <;> decide
  · intro s t
    rcases s with ⟨c, a⟩; rcases t with ⟨i1, i2, i3⟩
    cases c <;> cases a <;> cases i1 <;> cases i2 <;> cases i3 <;> decide
  · intro s
    rcases s with ⟨c, a⟩
    cases c <;> cases a <;> decide
  · intro s esc
    rcases s with ⟨c, a⟩
    cases c <;> cases a <;> cases esc <;> decide

/-- Witness for the amended C3: a concrete outside click closes the open menu. -/
theorem C3_click_escape_behaviour_witness :
    menuStep ⟨true, true⟩ (MenuEvent.click ⟨false, false, false⟩) = closeMenu :=
  C3_click_escape_behaviour.1 ⟨true, true⟩ ⟨false, false, false⟩ rfl rfl rfl

/-- C4: after the visibility recomputation runs, the scroll-to-top button
carries the visible class iff the scroll offset exceeds the configured
threshold, and the configured default threshold is 300. -/
theorem C4_scroll_visibility :
    config.scrollThreshold = 300 ∧
    ∀ (cfg : Config) (s : ScrollBtnState),
      ((updateScrollButton cfg s).visible = true ↔ s.scrollY > cfg.scrollThreshold) := by
  refine ⟨rfl, ?_⟩
  intro cfg s
  simp [updateScrollButton]

/-- One step preserves the frame-coalescing invariant. -/
theorem scrollStep_tickInv (cfg : Config) (s : ScrollBtnState) (e : ScrollEvent)
    (h : tickInv s) : tickInv (scrollStep cfg s e) := by
  rcases s with ⟨v, t, p, y0⟩
  cases e with
  | scroll y =>
    cases t <;> simp_all [scrollStep, tickInv]
  | frame =>
    cases p with
    | zero => exact h
    | succ n =>
      cases t
      · simp [tickInv] at h
      · simp [tickInv] at h
        simp [scrollStep, updateScrollButton, tickInv, h]

/-- C5: at most one visibility recomputation is ever pending: the ticking flag
is true exactly while one frame callback is scheduled but not yet run, a
scroll event arriving while the flag is set schedules nothing (only the
offset changes), and running the callback decrements the queue and resets the
flag so a later scroll event can schedule again. -/
theorem C5_frame_coalescing :
    (∀ (cfg : Config) (s : ScrollBtnState) (e : ScrollEvent),
      tickInv s → tickInv (scrollStep cfg s e)) ∧
    (∀ (cfg : Config) (evs : List ScrollEvent),
      tickInv (List.foldl (scrollStep cfg) scrollInit evs)) ∧
    (∀ (cfg : Config) (evs : List ScrollEvent),
      (List.foldl (scrollStep cfg) scrollInit evs).pendingFrames ≤ 1) ∧
    (∀ (cfg : Config) (s : ScrollBtnState) (y : Nat), s.ticking = true →
      scrollStep cfg s (ScrollEvent.scroll y) = { s with scrollY := y }) ∧
    (∀ (cfg : Config) (s : ScrollBtnState) (n : Nat), s.pendingFrames = n + 1 →
      (scrollStep cfg s ScrollEvent.frame).ticking = false ∧
      (scrollStep cfg s ScrollEvent.frame).pendingFrames = n) := by
  have fold : ∀ (cfg : Config) (evs : List ScrollEvent),
      tickInv (List.foldl (scrollStep cfg) scrollInit evs) := by
    intro cfg evs
    have gen : ∀ (evs : List ScrollEvent) (s : ScrollBtnState), tickInv s →
        tickInv (List.foldl (scrollStep cfg) s evs) := by
      intro evs
      induction evs with
      | nil => exact fun s h => h
      | cons e evs ih => exact fun s h => ih _ (scrollStep_tickInv cfg s e h)
    exact gen evs scrollInit (by decide)
  refine ⟨scrollStep_tickInv, fold, ?_, ?_, ?_⟩
  · intro cfg evs
    have h := fold cfg evs
    unfold tickInv at h
    rw [h]
    split <;> simp
  · intro cfg s y h
    rcases s with ⟨v, t, p, y0⟩
    subst h
    simp [scrollStep]
  · intro cfg s n h
    rcases s with ⟨v, t, p, y0⟩
    subst h
    simp [scrollStep, updateScrollButton]

/-- Witness for C5: the invariant holds after one concrete scroll step. -/
theorem C5_frame_coalescing_witness :
    tickInv (scrollStep config scrollInit (ScrollEvent.scroll 400)) :=
  C5_frame_coalescing.1 config scrollInit (ScrollEvent.scroll 400) (by decide)

/-- The error display keeps each parent at no more than one message element. -/
theorem msgCount_showError_le (el : Option FieldElem) (m : List Char)
    (h : msgCount el ≤ 1) : msgCount (showError el m) ≤ 1 := by
  cases el with
  | none => simpa [showError] using h
  | some e =>
    cases he : e.parentMsgs with
    | nil => simp [showError, showErrorElem, msgCount, he]
    | cons x xs =>
      simp only [msgCount, he, List.length_cons] at h
      simp only [showError, showErrorElem, msgCount, he, List.length_cons]
      omega

/-- Validation preserves the one-error-element-per-field invariant. -/
theorem validateForm_errMsgInv (f : FormState) (h : errMsgInv f) :
    errMsgInv (validateForm f).1 := by
  obtain ⟨h1, h2⟩ := h
  unfold validateForm
  split_ifs with c1 c2 c3
  · exact ⟨msgCount_showError_le _ _ h1, h2⟩
  · exact ⟨msgCount_showError_le _ _ h1, h2⟩
  · exact ⟨h1, msgCount_showError_le _ _ h2⟩
  · refine ⟨?_, ?_⟩
    · cases hf : f.email <;> simp [clearErrors, msgCount, clearField, hf]
    · cases hf : f.textarea <;> simp [clearErrors, msgCount, clearField, hf]

/-- The submit handler preserves the one-error-element-per-field invariant. -/
theorem handleSubmit_errMsgInv (f : FormState) (h : errMsgInv f) :
    errMsgInv (handleSubmit f).1 := by
  have hv := validateForm_errMsgInv f h
  cases hres : (validateForm f).2.2 with
  | false =>
    simp only [handleSubmit, hres, if_false]
    exact hv
  | true =>
    cases hb : (validateForm f).1.submitBtn with
    | none =>
      simp only [handleSubmit, hres, if_true, hb]
      exact hv
    | some btn =>
      simp only [handleSubmit, hres, if_true, hb]
      exact ⟨hv.1, hv.2⟩

/-- Any single user interaction preserves the invariant. -/
theorem formStep_errMsgInv (f : FormState) (a : FormAction) (h : errMsgInv f) :
    errMsgInv (formStep f a) := by
  cases a with
  | edit ev tv =>
    obtain ⟨h1, h2⟩ := h
    rcases f with ⟨oe, ot, ob⟩
    cases oe <;> cases ot <;> simp_all [formStep, errMsgInv, msgCount]
  | submit => exact handleSubmit_errMsgInv f h

/-- C6: each field's parent holds at most one error-message element at all
times: showing an error on a field with an existing error element reuses it
(same element count, text replaced), an element is created only when none
exists, and the at-most-one bound is preserved by every sequence of edits and
submissions. -/
theorem C6_single_error_element :
    (∀ (el : FieldElem) (m : List Char), el.parentMsgs = [] →
      (showErrorElem el m).parentMsgs = [m]) ∧
    (∀ (el : FieldElem) (m : List Char), el.parentMsgs ≠ [] →
      (showErrorElem el m).parentMsgs.length = el.parentMsgs.length ∧
      (showErrorElem el m).parentMsgs.head? = some m) ∧
    (∀ (f : FormState) (acts : List FormAction), errMsgInv f →
      errMsgInv (List.foldl formStep f acts)) := by
  refine ⟨?_, ?_, ?_⟩
  · intro el m h
    simp [showErrorElem, h]
  · intro el m h
    cases he : el.parentMsgs with
    | nil => exact absurd he h
    | cons x xs => simp [showErrorElem, he]
  · intro f acts
    induction acts generalizing f with
    | nil => exact fun h => h
    | cons a acts ih => exact fun h => ih _ (formStep_errMsgInv f a h)

/-- Witness for C6: two invalid submissions in a row leave one error element. -/
theorem C6_single_error_element_witness :
    errMsgInv (List.foldl formStep (mkForm "".toList "".toList)
      [FormAction.submit, FormAction.submit]) :=
  C6_single_error_element.2.2 (mkForm "".toList "".toList)
    [FormAction.submit, FormAction.submit] (by decide)

/-- Bound on the ghost load counter over any notification sequence. -/
theorem foldl_intersectionNotify_le (bs : List Bool) (s : ObservedImg) :
    (List.foldl intersectionNotify s bs).img.loadCount ≤
      s.img.loadCount + (if s.observed then 1 else 0) := by
  induction bs generalizing s with
  | nil => simp
  | cons b bs ih =>
    rcases s with ⟨obs, img⟩
    cases obs
    · simpa [List.foldl_cons, intersectionNotify] using ih ⟨false, img⟩
    · cases b
      · simpa [List.foldl_cons, intersectionNotify] using ih ⟨true, img⟩
      · have e1 : intersectionNotify ⟨true, img⟩ true = ⟨false, loadImg img⟩ := by
          simp [intersectionNotify]
        have h := ih ⟨false, loadImg img⟩
        have e2 : (loadImg img).loadCount = img.loadCount + 1 := rfl
        rw [List.foldl_cons, e1]
        simp at h ⊢
        omega

/-- C8: an image with a pending source is loaded at most once.  Unobserved
elements never trigger the handler; an observed element is unobserved the
moment it is first deemed intersecting; loading copies the pending source into
the active source (falling back to the existing source when the attribute is
absent) and adds the loaded class; and over any sequence of intersection
notifications the load action runs at most once. -/
theorem C8_lazy_load_once :
    (∀ (s : ObservedImg) (b : Bool), s.observed = false → intersectionNotify s b = s) ∧
    (∀ s : ObservedImg, s.observed = true →
      (intersectionNotify s true).observed = false ∧
      (intersectionNotify s true).img = loadImg s.img) ∧
    (∀ (img : LazyImg) (d : List Char), img.dataSrc = some d → d ≠ [] →
      (loadImg img).src = d ∧ (loadImg img).loadedClass = true) ∧
    (∀ img : LazyImg, img.dataSrc = none →
      (loadImg img).src = img.src ∧ (loadImg img).loadedClass = true) ∧
    (∀ (img : LazyImg) (bs : List Bool), img.loadCount = 0 →
      (List.foldl intersectionNotify ⟨true, img⟩ bs).img.loadCount ≤ 1) := by
  refine ⟨?_, ?_, ?_, ?_, ?_⟩
  · intro s b h
    rcases s with ⟨obs, img⟩
    subst h
    simp [intersectionNotify]
  · intro s h
    rcases s with ⟨obs, img⟩
    subst h
    simp [intersectionNotify]
  · intro img d hd hne
    simp [loadImg, hd, List.isEmpty_eq_false.mpr hne]
  · intro img hd
    simp [loadImg, hd]
  · intro img bs h
    have hb := foldl_intersectionNotify_le bs ⟨true, img⟩
    simp only [h, if_true] at hb
    simpa using hb

/-- Witness for C8: three intersecting notifications still load only once. -/
theorem C8_lazy_load_once_witness :
    (List.foldl intersectionNotify
      ⟨true, { src := "a".toList, dataSrc := some "b".toList,
               loadedClass := false, loadCount := 0 }⟩
      [true, true, true]).img.loadCount ≤ 1 :=
  C8_lazy_load_once.2.2.2.2
    { src := "a".toList, dataSrc := some "b".toList,
      loadedClass := false, loadCount := 0 }
    [true, true, true] rfl

/-- C7: on a successful submission with a submit button present, every error
class, aria-invalid attribute and error-message element in the form is
cleared, the button text becomes the confirmation string and the button is
disabled, and one deferred callback with a 2000 ms delay is scheduled whose
execution clears all field values, restores the original button text and
re-enables the button. -/
theorem C7_success_submission :
    ∀ (f : FormState) (e t : FieldElem) (btn : SubmitBtn),
      f.email = some e → (trim e.value).isEmpty = false → isValidEmail e.value = true →
      f.textarea = some t → (trim t.value).isEmpty = false →
      f.submitBtn = some btn →
      (handleSubmit f).1.email = some (clearField e) ∧
      (handleSubmit f).1.textarea = some (clearField t) ∧
      (clearField e).errorClass = false ∧ (clearField e).ariaInvalid = false ∧
      (clearField e).parentMsgs = [] ∧
      (clearField t).errorClass = false ∧ (clearField t).ariaInvalid = false ∧
      (clearField t).parentMsgs = [] ∧
      (handleSubmit f).1.submitBtn = some { text := sentText, disabled := true } ∧
      (handleSubmit f).2 = some (2000, btn.text) ∧
      (runResetCallback btn.text (handleSubmit f).1).email =
        some { value := [], errorClass := false, ariaInvalid := false, parentMsgs := [] } ∧
      (runResetCallback btn.text (handleSubmit f).1).textarea =
        some { value := [], errorClass := false, ariaInvalid := false, parentMsgs := [] } ∧
      (runResetCallback btn.text (handleSubmit f).1).submitBtn =
        some { text := btn.text, disabled := false } := by
  intro f e t btn he hb hv ht htb hbtn
  have hmb : fieldMissingOrBlank (some e) = false := by
    simp [fieldMissingOrBlank, hb]
  have htmb : fieldMissingOrBlank (some t) = false := by
    simp [fieldMissingOrBlank, htb]
  have hval : validateForm f = (clearErrors f, none, true) := by
    simp [validateForm, he, ht, hmb, htmb, hv]
  have hcb : (clearErrors f).submitBtn = some btn := by
    simp [clearErrors, hbtn]
  have hhs : handleSubmit f =
      ({ clearErrors f with submitBtn := some { text := sentText, disabled := true } },
        some (2000, btn.text)) := by
    simp [handleSubmit, hval, hcb]
  rw [hhs]
  simp [clearErrors, clearField, runResetCallback, resetField, he, ht]

/-- Witness for C7: a concrete valid form with a submit button schedules the
2000 ms reset callback carrying the original button text. -/
theorem C7_success_submission_witness :
    (handleSubmit
      { email := some { value := "a@b.co".toList, errorClass := false,
                        ariaInvalid := false, parentMsgs := [] }
        textarea := some { value := "hello".toList, errorClass := false,
                           ariaInvalid := false, parentMsgs := [] }
        submitBtn := some { text := "Send".toList, disabled := false } }).2 =
      some (2000, "Send".toList) :=
  (C7_success_submission _ _ _ _ rfl (by decide) (by decide) rfl (by decide)
    rfl).2.2.2.2.2.2.2.2.2.1

/-- C9: when the e-mail passes but the textarea fails, validation returns
before the clearing step: the result is false, the textarea error message is
the one shown, and the e-mail field keeps whatever stale error markings it
carried from an earlier submission. -/
theorem C9_stale_errors_kept :
    ∀ (f : FormState) (e : FieldElem),
      f.email = some e → (trim e.value).isEmpty = false → isValidEmail e.value = true →
      fieldMissingOrBlank f.textarea = true →
      (validateForm f).2.2 = false ∧
      (validateForm f).2.1 = some messageRequiredMsg ∧
      (validateForm f).1.email = some e := by
  intro f e he hb hv ht
  have hmb : fieldMissingOrBlank (some e) = false := by
    simp [fieldMissingOrBlank, hb]
  simp [validateForm, he, hmb, hv, ht]

/-- Witness for C9: an e-mail field still marked invalid from an earlier
submission keeps its error class, aria-invalid attribute and error element
when a later submission fails only on the blank textarea. -/
theorem C9_stale_errors_kept_witness :
    (validateForm
      { email := some { value := "a@b.co".toList, errorClass := true,
                        ariaInvalid := true, parentMsgs := [emailRequiredMsg] }
        textarea := some { value := "  ".toList, errorClass := false,
                           ariaInvalid := false, parentMsgs := [] }
        submitBtn := none }).1.email =
      some { value := "a@b.co".toList, errorClass := true,
             ariaInvalid := true, parentMsgs := [emailRequiredMsg] } :=
  (C9_stale_errors_kept _ _ rfl (by decide) (by decide) (by decide)).2.2

/-- C10: when validation succeeds but the form has no submit button, no sent
state is entered and no callback is scheduled: errors are cleared, the field
values are left unchanged, and the handler returns no timer. -/
theorem C10_no_submit_button :
    ∀ (f : FormState) (e t : FieldElem),
      f.email = some e → (trim e.value).isEmpty = false → isValidEmail e.value = true →
      f.textarea = some t → (trim t.value).isEmpty = false →
      f.submitBtn = none →
      (handleSubmit f).2 = none ∧
      (handleSubmit f).1 = clearErrors f ∧
      (handleSubmit f).1.email = some (clearField e) ∧
      (handleSubmit f).1.textarea = some (clearField t) ∧
      (clearField e).value = e.value ∧ (clearField t).value = t.value ∧
      (handleSubmit f).1.submitBtn = none := by
  intro f e t he hb hv ht htb hbtn
  have hmb : fieldMissingOrBlank (some e) = false := by
    simp [fieldMissingOrBlank, hb]
  have htmb : fieldMissingOrBlank (some t) = false := by
    simp [fieldMissingOrBlank, htb]
  have hval : validateForm f = (clearErrors f, none, true) := by
    simp [validateForm, he, ht, hmb, htmb, hv]
  have hcb : (clearErrors f).submitBtn = none := by
    simp [clearErrors, hbtn]
  simp [handleSubmit, hval, hcb, clearErrors, clearField, he, ht, hbtn]

/-- Witness for C10: a concrete valid form without a submit button yields no
timer and keeps the entered values. -/
theorem C10_no_submit_button_witness :
    (handleSubmit (mkForm "a@b.co".toList "hello".toList)).2 = none :=
  (C10_no_submit_button _ _ _ rfl (by decide) (by decide) rfl (by decide) rfl).1

end Portfolio
